import Mathlib

/-!
Shallow embedding of the pharmacy stock application (src/app.py): the
spreadsheet import pipeline `upload_file`, its helpers `truncate_string`
and the expiry-date parsers, and the request handlers `add_stock`,
`edit_stock` and `bulk_update_stock`.

Modelling conventions:
* Python cell values are `Value`; pandas renders an empty spreadsheet cell
  as the float `nan`, so `Value.float PyFloat.nan` plays that role.
* Python floats are `PyFloat`: the exact decimal mantissa/exponent read by
  `float(...)` (the claims only store and compare parsed floats, never
  compute with their magnitudes), plus nan / +inf / -inf.
* The `stocks` table is a list of `Stock` records in insertion order; the
  ORM session is modelled by pure state passing.  `filter_by(...).first()`
  is first-match search over that list (SQLAlchemy autoflush makes rows
  added earlier in the same import visible to later lookups).
* Timestamps (`datetime.utcnow`) are abstract clock ticks (`Nat`) supplied
  by the caller.
-/

set_option autoImplicit false
set_option maxRecDepth 8000

namespace ST

/-- Calendar date (models `datetime.date` and the date part of a pandas
timestamp). -/
structure Date where
  year : Nat
  month : Nat
  day : Nat
deriving DecidableEq, Repr

/-- Python float values as produced by `float(...)`: `mk m e` stands for
`m * 10 ^ e` exactly as parsed (unnormalised; no claim compares two
distinct spellings of the same magnitude), plus nan and signed infinity. -/
inductive PyFloat where
  | mk (mantissa : Int) (exp10 : Int)
  | nan
  | inf
  | ninf
deriving DecidableEq, Repr

/-- A spreadsheet cell / Python value as the import loop sees it. -/
inductive Value where
  | str (s : String)
  | int (n : Int)
  | float (f : PyFloat)
  | date (d : Date)
deriving DecidableEq, Repr

/-- Python truthiness (`if value ...` in `truncate_string`): empty string
and numeric zero are falsy; nan, infinities and timestamps are truthy. -/
def pyTruthy : Value → Bool
  | .str s => s ≠ ""
  | .int n => n ≠ 0
  | .float (.mk m _) => m ≠ 0
  | .float _ => true
  | .date _ => true

/-- Zero-pad a numeral to two digits (for the timestamp rendering). -/
def pad2 (n : Nat) : String :=
  if n < 10 then "0" ++ toString n else toString n

/-- Python `str(...)` on a cell value.  String/int cases are exact; the
float and timestamp renderings stand in for Python's `repr`: only their
length could ever matter (through `truncate_string`) and no claim
evaluates them. -/
def pyStr : Value → String
  | .str s => s
  | .int n => toString n
  | .float (.mk m e) => toString m ++ "e" ++ toString e
  | .float .nan => "nan"
  | .float .inf => "inf"
  | .float .ninf => "-inf"
  | .date d => toString d.year ++ "-" ++ pad2 d.month ++ "-" ++ pad2 d.day ++ " 00:00:00"

/-- `pd.notna`: false exactly on the float nan (the claims never involve
`None`/`NaT` cells). -/
def pdNotna : Value → Bool
  | .float .nan => false
  | _ => true

/-- Python `s[:n]` : the first `n` characters. -/
def pySlice (s : String) (n : Nat) : String :=
  ⟨s.data.take n⟩

/-- Whitespace stripped by Python `str.strip()` / by `float`/`int` on
strings (ASCII subset; the claims use no exotic spaces). -/
def isPySpace (c : Char) : Bool :=
  c = ' ' || c = '\t' || c = '\n' || c = '\r' || c = '\x0b' || c = '\x0c'

/-- Python `str.strip()`. -/
def pyStrip (s : String) : String :=
  ⟨((s.data.dropWhile isPySpace).reverse.dropWhile isPySpace).reverse⟩

/-- Numeric value of a digit string (callers guard that all characters are
digits). -/
def natOfDigits (s : String) : Nat :=
  s.data.foldl (fun n c => 10 * n + (c.toNat - 48)) 0

/-- A non-empty all-digit string, as matched by `int(...)` after the sign
and by the pieces of a float literal. -/
def digitStr (s : String) : Bool :=
  s.length != 0 && s.data.all Char.isDigit

/-- Split a character list at every occurrence of `c` (helper for
`splitOnChar`). -/
def splitOnCharAux (c : Char) : List Char → List Char → List (List Char)
  | [], acc => [acc.reverse]
  | x :: xs, acc =>
      if x = c then acc.reverse :: splitOnCharAux c xs []
      else splitOnCharAux c xs (x :: acc)

/-- `s.split(sep)` for a one-character separator (the only shape the code
uses: `"-"`, `"/"`, `"."`, `"e"`). -/
def splitOnChar (s : String) (c : Char) : List String :=
  (splitOnCharAux c s.data []).map (fun l => ⟨l⟩)

/-- ASCII lower-casing of a string. -/
def toLowerStr (s : String) : String :=
  ⟨s.data.map Char.toLower⟩

/-- `truncate_string` (src/app.py:67-71): if the value is truthy and its
`str` is longer than `max_length`, return the first `max_length - 3`
characters with `"..."` appended; otherwise return the value unchanged. -/
def truncate_string (value : Value) (maxLength : Nat) : Value :=
  if pyTruthy value ∧ (pyStr value).length > maxLength then
    .str (pySlice (pyStr value) (maxLength - 3) ++ "...")
  else
    value

/-- Mantissa of a Python float literal: `digits`, `digits.digits`,
`digits.` or `.digits` (at least one digit overall).  Returns the decimal
mantissa and the power-of-ten shift from the fractional part.
(Underscore separators of Python literals are not modelled; no claim uses
them.) -/
def floatMantissa (s : String) : Option (Nat × Nat) :=
  match splitOnChar s '.' with
  | [a] => if digitStr a then some (natOfDigits a, 0) else none
  | [a, b] =>
      if (a ++ b).length != 0 && (a ++ b).data.all Char.isDigit then
        some (natOfDigits (a ++ b), b.length)
      else none
  | _ => none

/-- Optional sign followed by a non-empty digit string (the exponent of a
float literal, and the body of `int(...)` on strings). -/
def signedDigits (s : String) : Option Int :=
  match s.data with
  | '-' :: rest =>
      if digitStr ⟨rest⟩ then some (-(natOfDigits ⟨rest⟩ : Int)) else none
  | '+' :: rest =>
      if digitStr ⟨rest⟩ then some (natOfDigits ⟨rest⟩ : Int) else none
  | _ => if digitStr s then some (natOfDigits s : Int) else none

/-- Unsigned float literal body: mantissa with optional `e`-exponent. -/
def unsignedFloat (s : String) : Option PyFloat :=
  match splitOnChar s 'e' with
  | [m] =>
      (floatMantissa m).map (fun p => .mk (p.1 : Int) (-(p.2 : Int)))
  | [m, ex] => do
      let p ← floatMantissa m
      let e ← signedDigits ex
      some (.mk (p.1 : Int) (e - (p.2 : Int)))
  | _ => none

/-- Python `float(...)` on a string: strip whitespace, lower-case (so that
`E` exponents and `NAN`/`INF` spellings match), optional sign, then a
decimal literal or one of the special spellings. -/
def pyFloatOfString (s : String) : Option PyFloat :=
  let t := toLowerStr (pyStrip s)
  if t = "nan" ∨ t = "+nan" ∨ t = "-nan" then some .nan
  else if t = "inf" ∨ t = "+inf" ∨ t = "infinity" ∨ t = "+infinity" then some .inf
  else if t = "-inf" ∨ t = "-infinity" then some .ninf
  else
    match t.data with
    | '-' :: rest =>
        (unsignedFloat ⟨rest⟩).map
          (fun f => match f with | .mk m e => .mk (-m) e | f => f)
    | '+' :: rest => unsignedFloat ⟨rest⟩
    | _ => unsignedFloat t

/-- Python `int(...)` on a string: strip whitespace, optional sign,
non-empty digits (no dots, no exponents). -/
def pyIntOfString (s : String) : Option Int :=
  signedDigits (pyStrip s)

/-- Truncation toward zero of `m * 10 ^ e`, i.e. Python `int(float)`. -/
def truncPow10 (m e : Int) : Int :=
  if 0 ≤ e then m * 10 ^ e.toNat else Int.tdiv m (10 ^ (-e).toNat)

/-- Python `float(cell)` (src/app.py:348-349): floats pass through, ints
widen, strings parse, timestamps raise `TypeError` (caught by the code). -/
def pyFloat? : Value → Option PyFloat
  | .float f => some f
  | .int n => some (.mk n 0)
  | .str s => pyFloatOfString s
  | .date _ => none

/-- Python `int(cell)` (src/app.py:350): ints pass through, finite floats
truncate toward zero, nan/inf raise, strings parse strictly, timestamps
raise `TypeError` (caught by the code). -/
def pyInt? : Value → Option Int
  | .int n => some n
  | .float (.mk m e) => some (truncPow10 m e)
  | .float _ => none
  | .str s => pyIntOfString s
  | .date _ => none

/-- Leap years of the Gregorian calendar (as `datetime` validates). -/
def isLeap (y : Nat) : Bool :=
  (y % 4 == 0 && y % 100 != 0) || y % 400 == 0

/-- Number of days of month `m` of year `y`. -/
def daysInMonth (y m : Nat) : Nat :=
  if m = 2 then (if isLeap y then 29 else 28)
  else if m = 4 ∨ m = 6 ∨ m = 9 ∨ m = 11 then 30
  else 31

/-- The calendar validity check `datetime.strptime` performs: year within
`datetime`'s 1..9999, real month, real day of that month. -/
def mkValidDate? (y m d : Nat) : Option Date :=
  if 1 ≤ y ∧ y ≤ 9999 ∧ 1 ≤ m ∧ m ≤ 12 ∧ 1 ≤ d ∧ d ≤ daysInMonth y m then
    some ⟨y, m, d⟩
  else none

/-- A `strptime` numeric field: 1 to `maxLen` digits and nothing else. -/
def fieldNat? (s : String) (maxLen : Nat) : Option Nat :=
  if 1 ≤ s.length ∧ s.length ≤ maxLen ∧ s.data.all Char.isDigit then
    some (natOfDigits s)
  else none

/-- `datetime.strptime(s, "%Y-%m-%d").date()`: exactly three dash-separated
digit fields (year up to 4 digits, month/day up to 2), forming a valid
calendar date; the whole string must be consumed. -/
def strptimeYMD (s : String) : Option Date :=
  match splitOnChar s '-' with
  | [ys, ms, ds] => do
      let y ← fieldNat? ys 4
      let m ← fieldNat? ms 2
      let d ← fieldNat? ds 2
      mkValidDate? y m d
  | _ => none

/-- `datetime.strptime(s, "%d/%m/%Y").date()`. -/
def strptimeDMY (s : String) : Option Date :=
  match splitOnChar s '/' with
  | [ds, ms, ys] => do
      let d ← fieldNat? ds 2
      let m ← fieldNat? ms 2
      let y ← fieldNat? ys 4
      mkValidDate? y m d
  | _ => none

/-- The expiry-date conversion of the import loop (src/app.py:318-339),
given whether the `expiry_date` column is present.  For strings: try
`%Y-%m-%d`, then `%d/%m/%Y`, then `row['expiry_date'].date()` — which a
`str` never has, so that final fallback yields None (`AttributeError`
swallowed by the bare `except`).  For non-strings: a timestamp's `.date()`
succeeds; ints/floats have neither `.date()` nor `.to_pydatetime()`, so
both fallbacks fail and the result is None.  A nan cell fails `pd.notna`
and is skipped.  No branch records a row error. -/
def parseExpiry (colPresent : Bool) (v : Value) : Option Date :=
  if colPresent ∧ pdNotna v then
    match v with
    | .str s =>
        match strptimeYMD s with
        | some d => some d
        | none =>
            match strptimeDMY s with
            | some d => some d
            | none => none
    | .date d => some d
    | _ => none
  else none

/-- One row of the `stocks` table.  `name`/`generic_name`/`category` keep
the Python value assigned to the ORM attribute (a string in every claim;
`truncate_string` can pass a non-string through unchanged, so the field is
a `Value`). -/
structure Stock where
  id : Nat
  name : Value
  generic_name : Value
  category : Value
  buy_price : PyFloat
  sell_price : PyFloat
  stock_quantity : Int
  expiry_date : Option Date
  created_at : Nat
  updated_at : Nat
deriving DecidableEq, Repr

/-- The database: the `stocks` table in insertion order plus the next
system-generated primary key. -/
structure DB where
  stocks : List Stock
  nextId : Nat
deriving DecidableEq, Repr

/-- `Stock.query.filter_by(name=n).first()`. -/
def findByName (db : DB) (n : Value) : Option Stock :=
  db.stocks.find? (fun s => s.name == n)

/-- Mutate the first record whose name is `n` in place (the ORM object
returned by `filter_by(name=n).first()`). -/
def updateFirst (l : List Stock) (n : Value) (f : Stock → Stock) : List Stock :=
  match l with
  | [] => []
  | s :: rest => if s.name == n then f s :: rest else s :: updateFirst rest n f

/-- The field assignments of the update branch of the import loop
(src/app.py:359-365): every mutable field is overwritten and `updated_at`
refreshed; `name` (the lookup key) and `created_at`/`id` stay. -/
def updatedStock (s : Stock) (g c : Value) (bp sp : PyFloat) (q : Int)
    (e : Option Date) (now : Nat) : Stock :=
  { s with generic_name := g, category := c, buy_price := bp, sell_price := sp,
           stock_quantity := q, expiry_date := e, updated_at := now }

/-- A dataset row: column name to cell value (a pandas Series).  A column
absent from the mapping is absent from the dataframe; pandas itself never
leaves a present column without a value (an empty cell reads as nan). -/
def Row : Type := List (String × Value)

/-- `row[c]` for a column the loop has established is present. -/
def cellAt (r : Row) (c : String) : Value :=
  (r.lookup c).getD (.float .nan)

/-- `row.get(c, default)`: the default only applies when the column is
absent from the dataframe. -/
def rowGet (r : Row) (c : String) (default : Value) : Value :=
  (r.lookup c).getD default

/-- The parsed spreadsheet (`pd.read_excel` output): header names plus the
data rows. -/
structure DataFrame where
  columns : List String
  rows : List Row

/-- The expiry date stored for a row (src/app.py:318-339): attempted only
when the `expiry_date` column exists and the cell is not nan. -/
def rowExpiry (cols : List String) (r : Row) : Option Date :=
  parseExpiry (decide ("expiry_date" ∈ cols)) (cellAt r "expiry_date")

/-- The stored (post-truncation) name of a row (src/app.py:342). -/
def rowName (r : Row) : Value :=
  truncate_string (cellAt r "name") 200

/-- The stored generic name of a row (src/app.py:343). -/
def rowGeneric (r : Row) : Value :=
  truncate_string (rowGet r "generic_name" (.str "")) 200

/-- The stored category of a row (src/app.py:344). -/
def rowCategory (r : Row) : Value :=
  truncate_string (rowGet r "category" (.str "")) 200

/-- What one import row does to the table (src/app.py:317-379): convert
the expiry date, truncate the text fields, parse the numeric fields (the
first failure raises `ValueError`/`TypeError`, caught as a row error),
then upsert by post-truncation name against the current table state. -/
inductive RowOutcome where
  | inserted (db : DB)
  | updated (db : DB)
  | failed
deriving DecidableEq, Repr

/-- Evaluate one row against the current database state. -/
def rowOutcome (cols : List String) (now : Nat) (db : DB) (r : Row) : RowOutcome :=
  let expiry := rowExpiry cols r
  let name := rowName r
  let generic := rowGeneric r
  let category := rowCategory r
  match pyFloat? (cellAt r "buy_price"), pyFloat? (cellAt r "sell_price"),
        pyInt? (cellAt r "stock_quantity") with
  | some bp, some sp, some q =>
      match findByName db name with
      | some _ =>
          .updated { db with
            stocks := updateFirst db.stocks name
              (fun s => updatedStock s generic category bp sp q expiry now) }
      | none =>
          .inserted
            { stocks := db.stocks ++
                  [⟨db.nextId, name, generic, category, bp, sp, q, expiry, now, now⟩],
              nextId := db.nextId + 1 }
  | _, _, _ => .failed

/-- Running state of the import loop: the session's view of the table and
the `stocks_added` / `stocks_updated` / `errors` accumulators. -/
structure ImportState where
  db : DB
  added : Nat
  updated : Nat
  errors : List String
deriving DecidableEq, Repr

/-- The row error message (src/app.py:352); the exception text after the
dash is not modelled, the claims only count errors. -/
def rowError (idx : Nat) : String :=
  "Row " ++ toString (idx + 2) ++ ": Invalid numeric data"

/-- One iteration of `for index, row in df.iterrows()`. -/
def processRow (cols : List String) (now : Nat) (idx : Nat)
    (st : ImportState) (r : Row) : ImportState :=
  match rowOutcome cols now st.db r with
  | .inserted db => { st with db := db, added := st.added + 1 }
  | .updated db => { st with db := db, updated := st.updated + 1 }
  | .failed => { st with errors := st.errors ++ [rowError idx] }

/-- The import loop over the data rows, carrying the dataframe index. -/
def importLoop (cols : List String) (now : Nat) : Nat → List Row → ImportState → ImportState
  | _, [], st => st
  | idx, r :: rs, st => importLoop cols now (idx + 1) rs (processRow cols now idx st r)

/-- The required columns of src/app.py:304. -/
def required_columns : List String :=
  ["name", "buy_price", "sell_price", "stock_quantity"]

/-- The missing-column computation of src/app.py:305. -/
def missingColumns (df : DataFrame) : List String :=
  required_columns.filter (fun c => c ∉ df.columns)

/-- Outcome of an upload request: the missing-columns flash, or the
summary counters and row errors after the single commit. -/
inductive UploadResult where
  | missingCols (cols : List String)
  | summary (added updated : Nat) (errors : List String)
deriving DecidableEq, Repr

/-- `upload_file` (src/app.py:283-411) after the spreadsheet has been
parsed: validate the required columns before touching any row, otherwise
run the loop and commit the resulting table state once. -/
def upload_file (df : DataFrame) (now : Nat) (db : DB) : DB × UploadResult :=
  if missingColumns df = [] then
    let st := importLoop df.columns now 0 df.rows ⟨db, 0, 0, []⟩
    (st.db, .summary st.added st.updated st.errors)
  else
    (db, .missingCols (missingColumns df))

/-- A submitted stock form (`request.form`, every field a string with the
defaults of src/app.py:132-138 already applied). -/
structure StockForm where
  name : String
  generic_name : String
  category : String
  buy_price : String
  sell_price : String
  stock_quantity : String
  expiry_date : String

/-- Result of a form handler: a redirect after commit, or a flashed
validation error (all error exits leave the committed state unchanged —
validation failures return before any assignment is committed). -/
inductive FormResult where
  | ok
  | error
deriving DecidableEq, Repr

/-- `add_stock` POST (src/app.py:128-189): strip the text fields, reject a
blank name, parse the numeric fields, parse a non-empty expiry date as
`%Y-%m-%d`, reject a duplicate (post-strip) name, else insert and
commit. -/
def add_stock (form : StockForm) (now : Nat) (db : DB) : DB × FormResult :=
  let name := pyStrip form.name
  let generic := pyStrip form.generic_name
  let category := pyStrip form.category
  if name = "" then (db, .error)
  else
    match pyFloatOfString form.buy_price, pyFloatOfString form.sell_price,
          pyIntOfString form.stock_quantity with
    | some bp, some sp, some q =>
        match (if form.expiry_date = "" then some none
               else (strptimeYMD form.expiry_date).map some) with
        | none => (db, .error)
        | some expiry =>
            match findByName db (.str name) with
            | some _ => (db, .error)
            | none =>
                ({ stocks := db.stocks ++
                       [⟨db.nextId, .str name, .str generic, .str category,
                         bp, sp, q, expiry, now, now⟩],
                   nextId := db.nextId + 1 }, .ok)
    | _, _, _ => (db, .error)

/-- Mutate the record `Stock.query.get(id)` returns (primary keys are
unique, so first match by id). -/
def updateById (l : List Stock) (i : Nat) (f : Stock → Stock) : List Stock :=
  match l with
  | [] => []
  | s :: rest => if s.id == i then f s :: rest else s :: updateById rest i f

/-- `edit_stock` POST (src/app.py:194-237): 404 on an unknown id; then the
handler assigns the stripped form fields — with no check that the name is
non-empty — parses the numeric fields and the optional `%Y-%m-%d` expiry
date, and commits.  On a validation error it returns without committing,
so the committed state is unchanged. -/
def edit_stock (stock_id : Nat) (form : StockForm) (now : Nat) (db : DB) :
    DB × FormResult :=
  match db.stocks.find? (fun s => s.id == stock_id) with
  | none => (db, .error)
  | some _ =>
      match pyFloatOfString form.buy_price, pyFloatOfString form.sell_price,
            pyIntOfString form.stock_quantity with
      | some bp, some sp, some q =>
          match (if form.expiry_date = "" then some none
                 else (strptimeYMD form.expiry_date).map some) with
          | none => (db, .error)
          | some expiry =>
              ({ db with stocks := updateById db.stocks stock_id (fun s =>
                  { s with
                    name := .str (pyStrip form.name),
                    generic_name := .str (pyStrip form.generic_name),
                    category := .str (pyStrip form.category),
                    buy_price := bp, sell_price := sp, stock_quantity := q,
                    expiry_date := expiry, updated_at := now }) }, .ok)
      | _, _, _ => (db, .error)

/-- Apply one entry of a bulk-quantity request: look the id up, and when
present set `stock_quantity` and refresh `updated_at`; an unknown id does
nothing. -/
def applyQtyUpdate (now : Nat) (l : List Stock) (u : Nat × Int) : List Stock :=
  updateById l u.1 (fun s => { s with stock_quantity := u.2, updated_at := now })

/-- `bulk_update_stock` (src/app.py:266-280): apply every entry in order,
commit once, report success. -/
def bulk_update_stock (updates : List (Nat × Int)) (now : Nat) (db : DB) :
    DB × Bool :=
  ({ db with stocks := updates.foldl (applyQtyUpdate now) db.stocks }, true)

/-- Whether the three numeric fields of a row all parse
(src/app.py:347-350); when false, the row is recorded as an error and
skipped. -/
def rowValid (r : Row) : Bool :=
  (pyFloat? (cellAt r "buy_price")).isSome &&
  (pyFloat? (cellAt r "sell_price")).isSome &&
  (pyInt? (cellAt r "stock_quantity")).isSome

/-- The name column of the table, in storage order. -/
def namesOf (db : DB) : List Value :=
  db.stocks.map Stock.name

/-- A record whose stored name is a non-empty string. -/
def nonEmptyName (s : Stock) : Bool :=
  match s.name with
  | .str t => t != ""
  | _ => false

/-- The §3 invariant: every record of the table has a non-empty name. -/
def dbNamesOk (db : DB) : Prop :=
  ∀ s ∈ db.stocks, nonEmptyName s = true

/-! ### Lemmas about name lookup and in-place update -/

lemma findByName_eq_none_iff (db : DB) (n : Value) :
    findByName db n = none ↔ n ∉ namesOf db := by
  simp [findByName, namesOf, List.find?_eq_none, List.mem_map]

lemma findByName_of_mem (db : DB) (n : Value) (h : n ∈ namesOf db) :
    ∃ s, findByName db n = some s := by
  rcases List.mem_map.mp h with ⟨s, hs, rfl⟩
  have hsome : (db.stocks.find? (fun t => t.name == s.name)).isSome :=
    List.find?_isSome.mpr ⟨s, hs, by simp⟩
  rcases Option.isSome_iff_exists.mp hsome with ⟨t, ht⟩
  exact ⟨t, ht⟩

lemma updatedStock_name (s : Stock) (g c : Value) (bp sp : PyFloat) (q : Int)
    (e : Option Date) (now : Nat) :
    (updatedStock s g c bp sp q e now).name = s.name := rfl

lemma updateFirst_map_name (l : List Stock) (n : Value) (f : Stock → Stock)
    (hf : ∀ s, (f s).name = s.name) :
    (updateFirst l n f).map Stock.name = l.map Stock.name := by
  induction l with
  | nil => rfl
  | cons s rest ih =>
      by_cases h : s.name = n
      · simp [updateFirst, h, hf]
      · simp [updateFirst, h, ih]

lemma updateFirst_append_of_not_mem (l : List Stock) (s : Stock) (n : Value)
    (f : Stock → Stock) (h : n ∉ l.map Stock.name) (hs : s.name = n) :
    updateFirst (l ++ [s]) n f = l ++ [f s] := by
  induction l with
  | nil => simp [updateFirst, hs]
  | cons t rest ih =>
      have ht : ¬ t.name = n := by
        intro hn
        exact h (by simp [hn])
      have hrest : n ∉ rest.map Stock.name := by
        intro hn
        exact h (by simp [hn])
      simp [updateFirst, ht, ih hrest]

lemma find?_name_append_of_not_mem (l : List Stock) (s : Stock)
    (n : Value) (h : n ∉ l.map Stock.name) (hs : s.name = n) :
    (l ++ [s]).find? (fun t => t.name == n) = some s := by
  induction l with
  | nil => simp [List.find?, hs]
  | cons t rest ih =>
      have ht : (t.name == n) = false := by
        simp only [beq_eq_false_iff_ne, ne_eq]
        intro hn
        exact h (by simp [hn])
      have hrest : n ∉ rest.map Stock.name := by
        intro hn
        exact h (by simp [hn])
      rw [List.cons_append, List.find?, ht]
      exact ih hrest

lemma findByName_append_of_not_mem (l : List Stock) (s : Stock) (k : Nat)
    (n : Value) (h : n ∉ l.map Stock.name) (hs : s.name = n) :
    findByName ⟨l ++ [s], k⟩ n = some s :=
  find?_name_append_of_not_mem l s n h hs

/-! ### Lemmas about one import-loop iteration -/

lemma rowValid_iff (r : Row) :
    rowValid r = true ↔ ∃ bp sp q,
      pyFloat? (cellAt r "buy_price") = some bp ∧
      pyFloat? (cellAt r "sell_price") = some sp ∧
      pyInt? (cellAt r "stock_quantity") = some q := by
  simp [rowValid, Option.isSome_iff_exists]
  tauto

lemma rowOutcome_eq_failed (cols : List String) (now : Nat) (db : DB) (r : Row)
    (h : rowValid r = false) :
    rowOutcome cols now db r = .failed := by
  rcases hb : pyFloat? (cellAt r "buy_price") with _ | bp <;>
    rcases hs : pyFloat? (cellAt r "sell_price") with _ | sp <;>
      rcases hq : pyInt? (cellAt r "stock_quantity") with _ | q <;>
        simp_all [rowValid, rowOutcome]

lemma rowOutcome_eq_inserted (cols : List String) (now : Nat) (db : DB) (r : Row)
    (bp sp : PyFloat) (q : Int)
    (hb : pyFloat? (cellAt r "buy_price") = some bp)
    (hs : pyFloat? (cellAt r "sell_price") = some sp)
    (hq : pyInt? (cellAt r "stock_quantity") = some q)
    (hf : findByName db (rowName r) = none) :
    rowOutcome cols now db r = .inserted
      ⟨db.stocks ++ [⟨db.nextId, rowName r, rowGeneric r, rowCategory r,
        bp, sp, q, rowExpiry cols r, now, now⟩], db.nextId + 1⟩ := by
  simp [rowOutcome, hb, hs, hq, hf]

lemma rowOutcome_eq_updated (cols : List String) (now : Nat) (db : DB) (r : Row)
    (bp sp : PyFloat) (q : Int) (s : Stock)
    (hb : pyFloat? (cellAt r "buy_price") = some bp)
    (hs : pyFloat? (cellAt r "sell_price") = some sp)
    (hq : pyInt? (cellAt r "stock_quantity") = some q)
    (hf : findByName db (rowName r) = some s) :
    rowOutcome cols now db r = .updated
      { db with
          stocks := updateFirst db.stocks (rowName r)
            (fun t => updatedStock t (rowGeneric r) (rowCategory r) bp sp q
              (rowExpiry cols r) now) } := by
  simp [rowOutcome, hb, hs, hq, hf]

lemma processRow_eq_failed (cols : List String) (now idx : Nat)
    (st : ImportState) (r : Row) (h : rowValid r = false) :
    processRow cols now idx st r = { st with errors := st.errors ++ [rowError idx] } := by
  simp [processRow, rowOutcome_eq_failed cols now st.db r h]

lemma processRow_eq_inserted (cols : List String) (now idx : Nat)
    (st : ImportState) (r : Row) (bp sp : PyFloat) (q : Int)
    (hb : pyFloat? (cellAt r "buy_price") = some bp)
    (hs : pyFloat? (cellAt r "sell_price") = some sp)
    (hq : pyInt? (cellAt r "stock_quantity") = some q)
    (hf : findByName st.db (rowName r) = none) :
    processRow cols now idx st r =
      { st with
        db := ⟨st.db.stocks ++ [⟨st.db.nextId, rowName r, rowGeneric r,
          rowCategory r, bp, sp, q, rowExpiry cols r, now, now⟩],
          st.db.nextId + 1⟩,
        added := st.added + 1 } := by
  simp [processRow, rowOutcome_eq_inserted cols now st.db r bp sp q hb hs hq hf]

lemma processRow_eq_updated (cols : List String) (now idx : Nat)
    (st : ImportState) (r : Row) (bp sp : PyFloat) (q : Int) (s : Stock)
    (hb : pyFloat? (cellAt r "buy_price") = some bp)
    (hs : pyFloat? (cellAt r "sell_price") = some sp)
    (hq : pyInt? (cellAt r "stock_quantity") = some q)
    (hf : findByName st.db (rowName r) = some s) :
    processRow cols now idx st r =
      { st with
        db := { st.db with
            stocks := updateFirst st.db.stocks (rowName r)
              (fun t => updatedStock t (rowGeneric r) (rowCategory r) bp sp q
                (rowExpiry cols r) now) },
        updated := st.updated + 1 } := by
  simp [processRow, rowOutcome_eq_updated cols now st.db r bp sp q s hb hs hq hf]

/-! ### Lemmas about the import loop -/

lemma importLoop_append (cols : List String) (now : Nat) (xs ys : List Row) :
    ∀ (idx : Nat) (st : ImportState),
      importLoop cols now idx (xs ++ ys) st =
        importLoop cols now (idx + xs.length) ys (importLoop cols now idx xs st) := by
  induction xs with
  | nil =>
      intro idx st
      simp [importLoop]
  | cons r rs ih =>
      intro idx st
      simp only [List.cons_append, List.append_eq, importLoop, List.length_cons]
      rw [ih]
      have harith : idx + 1 + rs.length = idx + (rs.length + 1) := by omega
      rw [harith]

lemma processRow_shift (cols : List String) (now idx : Nat) (db : DB)
    (a u : Nat) (e : List String) (r : Row) :
    processRow cols now idx ⟨db, a, u, e⟩ r =
      ⟨(processRow cols now idx ⟨db, 0, 0, []⟩ r).db,
       a + (processRow cols now idx ⟨db, 0, 0, []⟩ r).added,
       u + (processRow cols now idx ⟨db, 0, 0, []⟩ r).updated,
       e ++ (processRow cols now idx ⟨db, 0, 0, []⟩ r).errors⟩ := by
  cases h : rowOutcome cols now db r <;> simp [processRow, h]

lemma importLoop_shift (cols : List String) (now : Nat) (rows : List Row) :
    ∀ (idx : Nat) (db : DB) (a u : Nat) (e : List String),
      importLoop cols now idx rows ⟨db, a, u, e⟩ =
        ⟨(importLoop cols now idx rows ⟨db, 0, 0, []⟩).db,
         a + (importLoop cols now idx rows ⟨db, 0, 0, []⟩).added,
         u + (importLoop cols now idx rows ⟨db, 0, 0, []⟩).updated,
         e ++ (importLoop cols now idx rows ⟨db, 0, 0, []⟩).errors⟩ := by
  induction rows with
  | nil =>
      intro idx db a u e
      simp [importLoop]
  | cons r rs ih =>
      intro idx db a u e
      simp only [importLoop]
      rw [processRow_shift]
      have hP : processRow cols now idx ⟨db, 0, 0, []⟩ r =
          ⟨(processRow cols now idx ⟨db, 0, 0, []⟩ r).db,
           (processRow cols now idx ⟨db, 0, 0, []⟩ r).added,
           (processRow cols now idx ⟨db, 0, 0, []⟩ r).updated,
           (processRow cols now idx ⟨db, 0, 0, []⟩ r).errors⟩ := rfl
      rw [ih]
      conv_rhs => rw [hP, ih]
      simp [Nat.add_assoc, List.append_assoc]

lemma importLoop_run_eq (cols : List String) (now : Nat) (rows : List Row) :
    ∀ (idx idx' : Nat) (st st' : ImportState), st.db = st'.db →
      ∃ D A U E E',
        importLoop cols now idx rows st =
          ⟨D, st.added + A, st.updated + U, st.errors ++ E⟩ ∧
        importLoop cols now idx' rows st' =
          ⟨D, st'.added + A, st'.updated + U, st'.errors ++ E'⟩ ∧
        E.length = E'.length := by
  induction rows with
  | nil =>
      intro idx idx' st st' hdb
      obtain ⟨db, a, u, e⟩ := st
      obtain ⟨db2, a2, u2, e2⟩ := st'
      simp only at hdb
      subst hdb
      exact ⟨db, 0, 0, [], [], by simp [importLoop], by simp [importLoop], rfl⟩
  | cons r rs ih =>
      intro idx idx' st st' hdb
      obtain ⟨db, a, u, e⟩ := st
      obtain ⟨db2, a2, u2, e2⟩ := st'
      simp only at hdb
      subst hdb
      simp only [importLoop]
      cases h : rowOutcome cols now db r with
      | inserted db1 =>
          simp only [processRow, h]
          obtain ⟨D, A, U, E, E', h1, h2, hE⟩ :=
            ih (idx + 1) (idx' + 1) ⟨db1, a + 1, u, e⟩ ⟨db1, a2 + 1, u2, e2⟩ rfl
          refine ⟨D, 1 + A, U, E, E', ?_, ?_, hE⟩
          · rw [h1]
            have harith : a + 1 + A = a + (1 + A) := by omega
            simp only at harith ⊢
            rw [harith]
          · rw [h2]
            have harith : a2 + 1 + A = a2 + (1 + A) := by omega
            simp only at harith ⊢
            rw [harith]
      | updated db1 =>
          simp only [processRow, h]
          obtain ⟨D, A, U, E, E', h1, h2, hE⟩ :=
            ih (idx + 1) (idx' + 1) ⟨db1, a, u + 1, e⟩ ⟨db1, a2, u2 + 1, e2⟩ rfl
          refine ⟨D, A, 1 + U, E, E', ?_, ?_, hE⟩
          · rw [h1]
            have harith : u + 1 + U = u + (1 + U) := by omega
            simp only at harith ⊢
            rw [harith]
          · rw [h2]
            have harith : u2 + 1 + U = u2 + (1 + U) := by omega
            simp only at harith ⊢
            rw [harith]
      | failed =>
          simp only [processRow, h]
          obtain ⟨D, A, U, E, E', h1, h2, hE⟩ :=
            ih (idx + 1) (idx' + 1) ⟨db, a, u, e ++ [rowError idx]⟩
              ⟨db, a2, u2, e2 ++ [rowError idx']⟩ rfl
          refine ⟨D, A, U, [rowError idx] ++ E, [rowError idx'] ++ E', ?_, ?_, by simp [hE]⟩
          · rw [h1, List.append_assoc]
          · rw [h2, List.append_assoc]

/-! ### The claims -/

/-- C1: an upload whose dataset lacks at least one required column fails
immediately with the missing-columns error naming exactly the required
columns that are absent from the dataset; no row is processed and the
repository is returned unchanged. -/
theorem upload_missing_columns_aborts (df : DataFrame) (now : Nat) (db : DB)
    (h : missingColumns df ≠ []) :
    upload_file df now db = (db, .missingCols (missingColumns df)) ∧
    ∀ c, c ∈ missingColumns df ↔ c ∈ required_columns ∧ c ∉ df.columns := by
  constructor
  · simp [upload_file, h]
  · intro c
    simp [missingColumns, List.mem_filter]

/-- Witness for C1: a dataset with a data row but no `sell_price` column
is rejected with exactly that column named and the repository unchanged. -/
theorem upload_missing_columns_aborts_w :
    upload_file
        ⟨["name", "buy_price", "stock_quantity"],
         [[("name", .str "Aspirin"), ("buy_price", .int 1),
           ("stock_quantity", .int 10)]]⟩ 0 ⟨[], 1⟩ =
      (⟨[], 1⟩, .missingCols (missingColumns
        ⟨["name", "buy_price", "stock_quantity"],
         [[("name", .str "Aspirin"), ("buy_price", .int 1),
           ("stock_quantity", .int 10)]]⟩)) ∧
    ("sell_price" ∈ missingColumns
        ⟨["name", "buy_price", "stock_quantity"],
         [[("name", .str "Aspirin"), ("buy_price", .int 1),
           ("stock_quantity", .int 10)]]⟩ ↔
      "sell_price" ∈ required_columns ∧
        "sell_price" ∉ (["name", "buy_price", "stock_quantity"] : List String)) :=
  ⟨(upload_missing_columns_aborts _ 0 ⟨[], 1⟩ (by decide)).1,
   (upload_missing_columns_aborts _ 0 ⟨[], 1⟩ (by decide)).2 "sell_price"⟩

/-- C3: `truncate_string` at limit 200 leaves a string of at most 200
characters unchanged, and maps a longer string to its first 197 characters
followed by `"..."` — a 200-character result whose last three characters
are periods. -/
theorem truncate_string_limits (s : String) :
    (s.length ≤ 200 → truncate_string (.str s) 200 = .str s) ∧
    (200 < s.length →
      truncate_string (.str s) 200 = .str (pySlice s 197 ++ "...") ∧
      (pySlice s 197 ++ "...").length = 200 ∧
      (pySlice s 197 ++ "...").data.drop 197 = ['.', '.', '.']) := by
  have hps : pyStr (.str s) = s := rfl
  constructor
  · intro h
    simp only [truncate_string]
    split
    · rename_i hc
      exfalso
      rcases hc with ⟨-, hlen⟩
      rw [hps] at hlen
      omega
    · rfl
  · intro h
    have hne : s ≠ "" := by
      intro he
      rw [he] at h
      have h0 : ("" : String).length = 0 := rfl
      omega
    have htruthy : pyTruthy (.str s) = true := by
      simp [pyTruthy, hne]
    have htake : (pySlice s 197).length = 197 := by
      have h1 : (pySlice s 197).length = (s.data.take 197).length := rfl
      have h2 : s.data.length = s.length := rfl
      rw [h1, List.length_take]
      omega
    refine ⟨?_, ?_, ?_⟩
    · simp only [truncate_string]
      split
      · rfl
      · rename_i hc
        exfalso
        apply hc
        refine ⟨htruthy, ?_⟩
        rw [hps]
        omega
    · rw [String.length_append, htake]
      have h3 : ("..." : String).length = 3 := rfl
      omega
    · have hdata : (pySlice s 197 ++ "...").data = s.data.take 197 ++ "...".data := by
        rw [String.data_append]
        rfl
      rw [hdata]
      have h197 : (s.data.take 197).length = 197 := htake
      rw [List.drop_left' h197]

/-- Witness for C3: a 250-character name truncates to exactly 200
characters ending in three periods, and a short name is unchanged. -/
theorem truncate_string_limits_w :
    truncate_string (.str ⟨List.replicate 250 'a'⟩) 200 =
      .str (pySlice ⟨List.replicate 250 'a'⟩ 197 ++ "...") ∧
    (pySlice (⟨List.replicate 250 'a'⟩ : String) 197 ++ "...").length = 200 ∧
    (pySlice (⟨List.replicate 250 'a'⟩ : String) 197 ++ "...").data.drop 197 =
      ['.', '.', '.'] ∧
    truncate_string (.str "Aspirin") 200 = .str "Aspirin" :=
  ⟨((truncate_string_limits ⟨List.replicate 250 'a'⟩).2 (by decide)).1,
   ((truncate_string_limits ⟨List.replicate 250 'a'⟩).2 (by decide)).2.1,
   ((truncate_string_limits ⟨List.replicate 250 'a'⟩).2 (by decide)).2.2,
   (truncate_string_limits "Aspirin").1 (by decide)⟩

/-- C4: the expiry date of a row is obtained by trying, in order and
stopping at the first success: a date/timestamp cell used directly, the
`%Y-%m-%d` string format, the `%d/%m/%Y` string format, and the code's
final fallback attempt (calling `.date()` on the cell, which no string
supports); when everything fails the expiry is left `none` and the row is
not recorded as an error. -/
theorem expiry_parse_fallback_order :
    (∀ d : Date, parseExpiry true (.date d) = some d) ∧
    (∀ s d, strptimeYMD s = some d → parseExpiry true (.str s) = some d) ∧
    (∀ s d, strptimeYMD s = none → strptimeDMY s = some d →
      parseExpiry true (.str s) = some d) ∧
    (∀ s, strptimeYMD s = none → strptimeDMY s = none →
      parseExpiry true (.str s) = none) ∧
    parseExpiry true (.str "2024-01-15") = some ⟨2024, 1, 15⟩ ∧
    parseExpiry true (.str "15/01/2024") = some ⟨2024, 1, 15⟩ ∧
    parseExpiry true (.str "not-a-date") = none ∧
    (∀ (cols : List String) (now idx : Nat) (st : ImportState) (r : Row),
      rowValid r = true → (processRow cols now idx st r).errors = st.errors) := by
  refine ⟨?_, ?_, ?_, ?_, by decide, by decide, by decide, ?_⟩
  · intro d
    simp [parseExpiry, pdNotna]
  · intro s d h
    simp [parseExpiry, pdNotna, h]
  · intro s d h1 h2
    simp [parseExpiry, pdNotna, h1, h2]
  · intro s h1 h2
    simp [parseExpiry, pdNotna, h1, h2]
  · intro cols now idx st r hv
    rcases (rowValid_iff r).mp hv with ⟨bp, sp, q, hb, hs, hq⟩
    cases hf : findByName st.db (rowName r) with
    | none => rw [processRow_eq_inserted cols now idx st r bp sp q hb hs hq hf]
    | some s => rw [processRow_eq_updated cols now idx st r bp sp q s hb hs hq hf]

/-- Witness for C4: concrete instances of each fallback branch and of a
valid row recording no error. -/
theorem expiry_parse_fallback_order_w :
    parseExpiry true (.str "2024-02-29") = some ⟨2024, 2, 29⟩ ∧
    parseExpiry true (.str "07/03/2025") = some ⟨2025, 3, 7⟩ ∧
    parseExpiry true (.str "2024/01/15") = none ∧
    (processRow ["name", "buy_price", "sell_price", "stock_quantity", "expiry_date"]
        4 0 ⟨⟨[], 1⟩, 0, 0, []⟩
        [("name", .str "A"), ("buy_price", .int 1), ("sell_price", .int 2),
         ("stock_quantity", .int 3), ("expiry_date", .str "never")]).errors = [] :=
  ⟨expiry_parse_fallback_order.2.1 "2024-02-29" ⟨2024, 2, 29⟩ (by decide),
   expiry_parse_fallback_order.2.2.1 "07/03/2025" ⟨2025, 3, 7⟩ (by decide) (by decide),
   expiry_parse_fallback_order.2.2.2.1 "2024/01/15" (by decide) (by decide),
   expiry_parse_fallback_order.2.2.2.2.2.2.2 _ 4 0 ⟨⟨[], 1⟩, 0, 0, []⟩ _ (by decide)⟩

/-- `Stock.query.get` misses: an id absent from the table makes
`updateById` a no-op. -/
lemma updateById_not_mem (l : List Stock) (i : Nat) (f : Stock → Stock)
    (h : i ∉ l.map Stock.id) : updateById l i f = l := by
  induction l with
  | nil => rfl
  | cons t rest ih =>
      have ht : ¬ t.id = i := by
        intro hn
        exact h (by simp [hn])
      have hrest : i ∉ rest.map Stock.id := by
        intro hn
        exact h (by simp [hn])
      simp [updateById, ht, ih hrest]

/-- `Stock.query.get` hits: `updateById` rewrites exactly the first record
carrying the id. -/
lemma updateById_first (l1 : List Stock) (s : Stock) (l2 : List Stock)
    (i : Nat) (f : Stock → Stock) (hs : s.id = i) (h : i ∉ l1.map Stock.id) :
    updateById (l1 ++ s :: l2) i f = l1 ++ f s :: l2 := by
  induction l1 with
  | nil => simp [updateById, hs]
  | cons t rest ih =>
      have ht : ¬ t.id = i := by
        intro hn
        exact h (by simp [hn])
      have hrest : i ∉ rest.map Stock.id := by
        intro hn
        exact h (by simp [hn])
      simp [updateById, ht, ih hrest]

/-- C7: a bulk quantity update always reports success; an entry whose id
matches no record is silently skipped (a request of only such an entry
leaves the repository unchanged), and an entry whose id is present sets
that record's `stock_quantity` and refreshes its `updated_at`, all within
the one committed batch the function returns. -/
theorem bulk_update_skips_unknown_ids :
    (∀ (updates : List (Nat × Int)) (now : Nat) (db : DB),
      (bulk_update_stock updates now db).2 = true) ∧
    (∀ (i : Nat) (q : Int) (now : Nat) (db : DB),
      i ∉ db.stocks.map Stock.id →
      bulk_update_stock [(i, q)] now db = (db, true)) ∧
    (∀ (i : Nat) (q : Int) (now : Nat) (db : DB) (l1 : List Stock) (s : Stock)
        (l2 : List Stock),
      db.stocks = l1 ++ s :: l2 → s.id = i → i ∉ l1.map Stock.id →
      bulk_update_stock [(i, q)] now db =
        ({ db with stocks :=
            l1 ++ { s with stock_quantity := q, updated_at := now } :: l2 },
         true)) := by
  refine ⟨fun updates now db => rfl, ?_, ?_⟩
  · intro i q now db h
    simp [bulk_update_stock, applyQtyUpdate, updateById_not_mem db.stocks i _ h]
  · intro i q now db l1 s l2 hdb hs h
    simp [bulk_update_stock, applyQtyUpdate, hdb, updateById_first l1 s l2 i _ hs h]

/-- Witness for C7: the unknown id 9999 is skipped with no change, and an
update of the present id 1 rewrites quantity and `updated_at`. -/
theorem bulk_update_skips_unknown_ids_w :
    (bulk_update_stock [(7, 5)] 3
        ⟨[⟨1, .str "Aspirin", .str "", .str "", .mk 1 0, .mk 2 0, 5, none, 0, 0⟩], 2⟩).2
      = true ∧
    bulk_update_stock [(9999, 5)] 3
        ⟨[⟨1, .str "Aspirin", .str "", .str "", .mk 1 0, .mk 2 0, 5, none, 0, 0⟩], 2⟩ =
      (⟨[⟨1, .str "Aspirin", .str "", .str "", .mk 1 0, .mk 2 0, 5, none, 0, 0⟩], 2⟩,
       true) ∧
    bulk_update_stock [(1, 42)] 3
        ⟨[⟨1, .str "Aspirin", .str "", .str "", .mk 1 0, .mk 2 0, 5, none, 0, 0⟩], 2⟩ =
      (⟨[⟨1, .str "Aspirin", .str "", .str "", .mk 1 0, .mk 2 0, 42, none, 0, 3⟩], 2⟩,
       true) :=
  ⟨bulk_update_skips_unknown_ids.1 [(7, 5)] 3 _,
   bulk_update_skips_unknown_ids.2.1 9999 5 3 _ (by decide),
   bulk_update_skips_unknown_ids.2.2 1 42 3
     ⟨[⟨1, .str "Aspirin", .str "", .str "", .mk 1 0, .mk 2 0, 5, none, 0, 0⟩], 2⟩
     [] ⟨1, .str "Aspirin", .str "", .str "", .mk 1 0, .mk 2 0, 5, none, 0, 0⟩ []
     rfl rfl (by decide)⟩

/-- C9: a form-based create whose stripped name equals the name of a
record already in the table is refused with an error and leaves the
repository unchanged — whatever the remaining form fields contain. -/
theorem add_stock_rejects_duplicate_name (form : StockForm) (now : Nat)
    (db : DB) (s : Stock)
    (h : findByName db (.str (pyStrip form.name)) = some s) :
    add_stock form now db = (db, .error) := by
  unfold add_stock
  by_cases h0 : pyStrip form.name = ""
  · simp [h0]
  · cases hb : pyFloatOfString form.buy_price with
    | none => simp [h0, hb]
    | some bp =>
        cases hs2 : pyFloatOfString form.sell_price with
        | none => simp [h0, hb, hs2]
        | some sp =>
            cases hq : pyIntOfString form.stock_quantity with
            | none => simp [h0, hb, hs2, hq]
            | some q =>
                cases hx : (if form.expiry_date = "" then some none
                    else (strptimeYMD form.expiry_date).map some) with
                | none => simp [h0, hb, hs2, hq, hx]
                | some e => simp [h0, hb, hs2, hq, hx, h]

/-- Witness for C9: creating a second "Aspirin" is refused and the table
is untouched. -/
theorem add_stock_rejects_duplicate_name_w :
    add_stock ⟨" Aspirin ", "gen", "cat", "1.0", "2.0", "5", ""⟩ 9
        ⟨[⟨1, .str "Aspirin", .str "", .str "", .mk 1 0, .mk 2 0, 5, none, 0, 0⟩], 2⟩ =
      (⟨[⟨1, .str "Aspirin", .str "", .str "", .mk 1 0, .mk 2 0, 5, none, 0, 0⟩], 2⟩,
       .error) :=
  add_stock_rejects_duplicate_name ⟨" Aspirin ", "gen", "cat", "1.0", "2.0", "5", ""⟩ 9
    ⟨[⟨1, .str "Aspirin", .str "", .str "", .mk 1 0, .mk 2 0, 5, none, 0, 0⟩], 2⟩
    ⟨1, .str "Aspirin", .str "", .str "", .mk 1 0, .mk 2 0, 5, none, 0, 0⟩
    (by decide)

/-- C10: when an import row matches an existing record and its optional
`generic_name` / `category` are missing — the column is absent from the
dataset (so `row.get` yields the `''` default) or the cell holds the empty
string — the update branch overwrites the stored `generic_name` /
`category` with the empty string instead of preserving the old values.
(An empty spreadsheet cell that pandas materialises as the float nan would
also not preserve the old value: `truncate_string` passes the truthy nan
through unchanged and the assignment stores it.) -/
theorem import_blank_optionals_overwrite (cols : List String) (now idx : Nat)
    (st : ImportState) (r : Row) (s : Stock) (bp sp : PyFloat) (q : Int)
    (hb : pyFloat? (cellAt r "buy_price") = some bp)
    (hs : pyFloat? (cellAt r "sell_price") = some sp)
    (hq : pyInt? (cellAt r "stock_quantity") = some q)
    (hf : findByName st.db (rowName r) = some s)
    (hg : r.lookup "generic_name" = none ∨ r.lookup "generic_name" = some (.str ""))
    (hc : r.lookup "category" = none ∨ r.lookup "category" = some (.str "")) :
    rowGeneric r = .str "" ∧ rowCategory r = .str "" ∧
    processRow cols now idx st r =
      { st with
        db := { st.db with
            stocks := updateFirst st.db.stocks (rowName r)
              (fun t => updatedStock t (.str "") (.str "") bp sp q
                (rowExpiry cols r) now) },
        updated := st.updated + 1 } ∧
    (∀ (t : Stock) (g c : Value) (e : Option Date),
      (updatedStock t g c bp sp q e now).generic_name = g ∧
      (updatedStock t g c bp sp q e now).category = c) := by
  have hg0 : rowGeneric r = .str "" := by
    rcases hg with h | h <;> simp [rowGeneric, rowGet, h, truncate_string, pyTruthy]
  have hc0 : rowCategory r = .str "" := by
    rcases hc with h | h <;> simp [rowCategory, rowGet, h, truncate_string, pyTruthy]
  refine ⟨hg0, hc0, ?_, fun t g c e => ⟨rfl, rfl⟩⟩
  rw [processRow_eq_updated cols now idx st r bp sp q s hb hs hq hf, hg0, hc0]

/-- Witness for C10: a dataset without the optional columns updates the
existing "Aspirin" record, blanking its stored generic name and
category. -/
theorem import_blank_optionals_overwrite_w :
    rowGeneric [("name", .str "Aspirin"), ("buy_price", .int 3),
        ("sell_price", .int 4), ("stock_quantity", .int 6)] = .str "" ∧
    processRow ["name", "buy_price", "sell_price", "stock_quantity"] 7 0
        ⟨⟨[⟨1, .str "Aspirin", .str "acetylsalicylic acid", .str "pain", .mk 1 0,
            .mk 2 0, 5, none, 0, 0⟩], 2⟩, 0, 0, []⟩
        [("name", .str "Aspirin"), ("buy_price", .int 3),
         ("sell_price", .int 4), ("stock_quantity", .int 6)] =
      ⟨⟨[⟨1, .str "Aspirin", .str "", .str "", .mk 3 0, .mk 4 0, 6, none, 0, 7⟩], 2⟩,
       0, 1, []⟩ := by
  have h := import_blank_optionals_overwrite
    ["name", "buy_price", "sell_price", "stock_quantity"] 7 0
    ⟨⟨[⟨1, .str "Aspirin", .str "acetylsalicylic acid", .str "pain", .mk 1 0,
        .mk 2 0, 5, none, 0, 0⟩], 2⟩, 0, 0, []⟩
    [("name", .str "Aspirin"), ("buy_price", .int 3),
     ("sell_price", .int 4), ("stock_quantity", .int 6)]
    ⟨1, .str "Aspirin", .str "acetylsalicylic acid", .str "pain", .mk 1 0,
      .mk 2 0, 5, none, 0, 0⟩
    (.mk 3 0) (.mk 4 0) 6
    (by decide) (by decide) (by decide) (by decide) (by decide) (by decide)
  refine ⟨h.1, ?_⟩
  rw [h.2.2.1]
  decide

/-- C2: a row whose numeric fields fail to parse records exactly one row
error and changes nothing else: the table, the insert count and the update
count of the whole import equal those of the same import without that row,
and the error list is exactly one entry longer. -/
theorem import_invalid_numeric_row_skipped (cols : List String) (now : Nat)
    (db : DB) (pre post : List Row) (bad : Row) (h : rowValid bad = false) :
    (∀ (idx : Nat) (st : ImportState),
      processRow cols now idx st bad =
        { st with errors := st.errors ++ [rowError idx] }) ∧
    (importLoop cols now 0 (pre ++ bad :: post) ⟨db, 0, 0, []⟩).db =
      (importLoop cols now 0 (pre ++ post) ⟨db, 0, 0, []⟩).db ∧
    (importLoop cols now 0 (pre ++ bad :: post) ⟨db, 0, 0, []⟩).added =
      (importLoop cols now 0 (pre ++ post) ⟨db, 0, 0, []⟩).added ∧
    (importLoop cols now 0 (pre ++ bad :: post) ⟨db, 0, 0, []⟩).updated =
      (importLoop cols now 0 (pre ++ post) ⟨db, 0, 0, []⟩).updated ∧
    (importLoop cols now 0 (pre ++ bad :: post) ⟨db, 0, 0, []⟩).errors.length =
      (importLoop cols now 0 (pre ++ post) ⟨db, 0, 0, []⟩).errors.length + 1 := by
  refine ⟨fun idx st => processRow_eq_failed cols now idx st bad h, ?_⟩
  have hfull : importLoop cols now 0 (pre ++ bad :: post) ⟨db, 0, 0, []⟩ =
      importLoop cols now (0 + pre.length + 1) post
        { importLoop cols now 0 pre ⟨db, 0, 0, []⟩ with
            errors := (importLoop cols now 0 pre ⟨db, 0, 0, []⟩).errors ++
              [rowError (0 + pre.length)] } := by
    rw [importLoop_append]
    simp only [importLoop]
    rw [processRow_eq_failed cols now _ _ bad h]
  have hwo : importLoop cols now 0 (pre ++ post) ⟨db, 0, 0, []⟩ =
      importLoop cols now (0 + pre.length) post
        (importLoop cols now 0 pre ⟨db, 0, 0, []⟩) := by
    rw [importLoop_append]
  obtain ⟨D, A, U, E, E', h1, h2, hE⟩ :=
    importLoop_run_eq cols now post (0 + pre.length + 1) (0 + pre.length)
      { importLoop cols now 0 pre ⟨db, 0, 0, []⟩ with
          errors := (importLoop cols now 0 pre ⟨db, 0, 0, []⟩).errors ++
            [rowError (0 + pre.length)] }
      (importLoop cols now 0 pre ⟨db, 0, 0, []⟩) rfl
  rw [hfull, hwo, h1, h2]
  refine ⟨rfl, rfl, rfl, ?_⟩
  simp [hE]
  omega

/-- Witness for C2: a batch of a valid row, a row with `buy_price` "abc"
and another valid row yields the same table and counts as the batch
without the bad row, plus exactly one error. -/
theorem import_invalid_numeric_row_skipped_w :
    (processRow ["name", "buy_price", "sell_price", "stock_quantity"] 5 1
        ⟨⟨[], 1⟩, 0, 0, []⟩
        [("name", .str "B"), ("buy_price", .str "abc"), ("sell_price", .int 3),
         ("stock_quantity", .int 1)] =
      ⟨⟨[], 1⟩, 0, 0, ["Row 3: Invalid numeric data"]⟩) ∧
    (importLoop ["name", "buy_price", "sell_price", "stock_quantity"] 5 0
        ([[("name", .str "A"), ("buy_price", .int 1), ("sell_price", .int 2),
           ("stock_quantity", .int 1)]] ++
          [("name", .str "B"), ("buy_price", .str "abc"), ("sell_price", .int 3),
           ("stock_quantity", .int 1)] ::
          [[("name", .str "C"), ("buy_price", .int 2), ("sell_price", .int 4),
            ("stock_quantity", .int 2)]]) ⟨⟨[], 1⟩, 0, 0, []⟩).added =
      (importLoop ["name", "buy_price", "sell_price", "stock_quantity"] 5 0
        ([[("name", .str "A"), ("buy_price", .int 1), ("sell_price", .int 2),
           ("stock_quantity", .int 1)]] ++
          [[("name", .str "C"), ("buy_price", .int 2), ("sell_price", .int 4),
            ("stock_quantity", .int 2)]]) ⟨⟨[], 1⟩, 0, 0, []⟩).added ∧
    (importLoop ["name", "buy_price", "sell_price", "stock_quantity"] 5 0
        ([[("name", .str "A"), ("buy_price", .int 1), ("sell_price", .int 2),
           ("stock_quantity", .int 1)]] ++
          [("name", .str "B"), ("buy_price", .str "abc"), ("sell_price", .int 3),
           ("stock_quantity", .int 1)] ::
          [[("name", .str "C"), ("buy_price", .int 2), ("sell_price", .int 4),
            ("stock_quantity", .int 2)]]) ⟨⟨[], 1⟩, 0, 0, []⟩).errors.length =
      (importLoop ["name", "buy_price", "sell_price", "stock_quantity"] 5 0
        ([[("name", .str "A"), ("buy_price", .int 1), ("sell_price", .int 2),
           ("stock_quantity", .int 1)]] ++
          [[("name", .str "C"), ("buy_price", .int 2), ("sell_price", .int 4),
            ("stock_quantity", .int 2)]]) ⟨⟨[], 1⟩, 0, 0, []⟩).errors.length + 1 := by
  have h := import_invalid_numeric_row_skipped
    ["name", "buy_price", "sell_price", "stock_quantity"] 5 ⟨[], 1⟩
    [[("name", .str "A"), ("buy_price", .int 1), ("sell_price", .int 2),
      ("stock_quantity", .int 1)]]
    [[("name", .str "C"), ("buy_price", .int 2), ("sell_price", .int 4),
      ("stock_quantity", .int 2)]]
    [("name", .str "B"), ("buy_price", .str "abc"), ("sell_price", .int 3),
     ("stock_quantity", .int 1)]
    (by decide)
  exact ⟨h.1 1 ⟨⟨[], 1⟩, 0, 0, []⟩, h.2.2.1, h.2.2.2.2⟩

/-- C5: a valid row is matched by exact post-truncation name against the
table state current when the row runs: a hit rewrites every mutable field
of the first matching record and refreshes `updated_at`, counting one
update; a miss appends a fresh record, counting one insert.  Consequently
two same-named rows of one upload produce one insert followed by one
update of that same record, the second row's values winning. -/
theorem import_upsert_by_name (cols : List String) (now idx : Nat)
    (st : ImportState) (r : Row) (bp sp : PyFloat) (q : Int)
    (hb : pyFloat? (cellAt r "buy_price") = some bp)
    (hs : pyFloat? (cellAt r "sell_price") = some sp)
    (hq : pyInt? (cellAt r "stock_quantity") = some q) :
    (∀ s, findByName st.db (rowName r) = some s →
      processRow cols now idx st r =
        { st with
          db := { st.db with
              stocks := updateFirst st.db.stocks (rowName r)
                (fun t => updatedStock t (rowGeneric r) (rowCategory r) bp sp q
                  (rowExpiry cols r) now) },
          updated := st.updated + 1 }) ∧
    (findByName st.db (rowName r) = none →
      processRow cols now idx st r =
        { st with
          db := ⟨st.db.stocks ++ [⟨st.db.nextId, rowName r, rowGeneric r,
            rowCategory r, bp, sp, q, rowExpiry cols r, now, now⟩],
            st.db.nextId + 1⟩,
          added := st.added + 1 }) ∧
    (∀ (db : DB) (r2 : Row) (bp2 sp2 : PyFloat) (q2 : Int),
      pyFloat? (cellAt r2 "buy_price") = some bp2 →
      pyFloat? (cellAt r2 "sell_price") = some sp2 →
      pyInt? (cellAt r2 "stock_quantity") = some q2 →
      rowName r2 = rowName r →
      rowName r ∉ namesOf db →
      importLoop cols now idx [r, r2] ⟨db, 0, 0, []⟩ =
        ⟨⟨db.stocks ++
            [updatedStock
              ⟨db.nextId, rowName r, rowGeneric r, rowCategory r, bp, sp, q,
                rowExpiry cols r, now, now⟩
              (rowGeneric r2) (rowCategory r2) bp2 sp2 q2 (rowExpiry cols r2) now],
          db.nextId + 1⟩, 1, 1, []⟩) := by
  refine ⟨?_, ?_, ?_⟩
  · intro s hf
    exact processRow_eq_updated cols now idx st r bp sp q s hb hs hq hf
  · intro hf
    exact processRow_eq_inserted cols now idx st r bp sp q hb hs hq hf
  · intro db r2 bp2 sp2 q2 hb2 hs2 hq2 hname hnm
    have hf1 : findByName db (rowName r) = none :=
      (findByName_eq_none_iff db _).mpr hnm
    simp only [importLoop]
    rw [processRow_eq_inserted cols now idx ⟨db, 0, 0, []⟩ r bp sp q hb hs hq hf1]
    have hf2 : findByName
        ⟨db.stocks ++ [⟨db.nextId, rowName r, rowGeneric r, rowCategory r,
          bp, sp, q, rowExpiry cols r, now, now⟩], db.nextId + 1⟩
        (rowName r2) = some
          ⟨db.nextId, rowName r, rowGeneric r, rowCategory r, bp, sp, q,
            rowExpiry cols r, now, now⟩ := by
      rw [hname]
      exact findByName_append_of_not_mem db.stocks _ _ _ hnm rfl
    rw [processRow_eq_updated cols now (idx + 1) _ r2 bp2 sp2 q2 _ hb2 hs2 hq2 hf2]
    have hrw : updateFirst
        (db.stocks ++ [⟨db.nextId, rowName r, rowGeneric r, rowCategory r,
          bp, sp, q, rowExpiry cols r, now, now⟩]) (rowName r2)
        (fun t => updatedStock t (rowGeneric r2) (rowCategory r2) bp2 sp2 q2
          (rowExpiry cols r2) now) =
        db.stocks ++ [updatedStock
          ⟨db.nextId, rowName r, rowGeneric r, rowCategory r, bp, sp, q,
            rowExpiry cols r, now, now⟩
          (rowGeneric r2) (rowCategory r2) bp2 sp2 q2 (rowExpiry cols r2) now] := by
      rw [hname]
      exact updateFirst_append_of_not_mem db.stocks _ _ _ hnm rfl
    rw [hrw]

/-- Witness for C5: two rows named "A" over an empty table leave one
record carrying the second row's prices and quantity, counted as one
insert plus one update. -/
theorem import_upsert_by_name_w :
    importLoop ["name", "buy_price", "sell_price", "stock_quantity"] 5 0
        [[("name", .str "A"), ("buy_price", .int 1), ("sell_price", .int 2),
          ("stock_quantity", .int 3)],
         [("name", .str "A"), ("buy_price", .int 9), ("sell_price", .int 8),
          ("stock_quantity", .int 7)]] ⟨⟨[], 1⟩, 0, 0, []⟩ =
      ⟨⟨[⟨1, .str "A", .str "", .str "", .mk 9 0, .mk 8 0, 7, none, 5, 5⟩], 2⟩,
       1, 1, []⟩ := by
  have h := (import_upsert_by_name
      ["name", "buy_price", "sell_price", "stock_quantity"] 5 0
      ⟨⟨[], 1⟩, 0, 0, []⟩
      [("name", .str "A"), ("buy_price", .int 1), ("sell_price", .int 2),
       ("stock_quantity", .int 3)]
      (.mk 1 0) (.mk 2 0) 3 (by decide) (by decide) (by decide)).2.2
    ⟨[], 1⟩
    [("name", .str "A"), ("buy_price", .int 9), ("sell_price", .int 8),
     ("stock_quantity", .int 7)]
    (.mk 9 0) (.mk 8 0) 7 (by decide) (by decide) (by decide) (by decide)
    (by decide)
  rw [h]
  decide

/-- `truncate_string` at limit 200 sends a string to a string, a non-empty
one to a non-empty one. -/
lemma truncate_string_str (t : String) :
    ∃ u, truncate_string (.str t) 200 = .str u ∧ (t ≠ "" → u ≠ "") := by
  simp only [truncate_string]
  split
  · refine ⟨_, rfl, fun _ he => ?_⟩
    have hd := congrArg String.data he
    rw [String.data_append] at hd
    have h0 : ("" : String).data = [] := rfl
    rw [h0] at hd
    rcases List.append_eq_nil.mp hd with ⟨-, h2⟩
    have h3 : ("..." : String).data = ['.', '.', '.'] := rfl
    rw [h3] at h2
    cases h2
  · exact ⟨t, rfl, fun hne => hne⟩

/-- A row whose name cell is a non-empty string stores a non-empty string
name. -/
lemma rowName_str (r : Row) (t : String) (hc : cellAt r "name" = .str t)
    (ht : t ≠ "") : ∃ u, rowName r = .str u ∧ u ≠ "" := by
  rcases truncate_string_str t with ⟨u, hu, hne⟩
  exact ⟨u, by rw [rowName, hc, hu], hne ht⟩

/-- Every record of an `updateFirst` image satisfies a property preserved
by the rewriting function and holding on the input. -/
lemma updateFirst_forall (P : Stock → Bool) (l : List Stock) (n : Value)
    (f : Stock → Stock) (hP : ∀ s, P s = true → P (f s) = true)
    (h : ∀ s ∈ l, P s = true) : ∀ s ∈ updateFirst l n f, P s = true := by
  induction l with
  | nil => intro s hs; cases hs
  | cons t rest ih =>
      intro s hs
      by_cases hn : t.name == n
      · simp only [updateFirst, hn, if_pos] at hs
        rcases List.mem_cons.mp hs with rfl | hmem
        · exact hP t (h t (by simp))
        · exact h s (by simp [hmem])
      · simp only [updateFirst, hn, if_neg, Bool.false_eq_true, not_false_iff] at hs
        rcases List.mem_cons.mp hs with rfl | hmem
        · exact h s (by simp)
        · exact ih (fun x hx => h x (by simp [hx])) s hmem

/-- Every record of an `updateById` image satisfies a property preserved
by the rewriting function and holding on the input. -/
lemma updateById_forall (P : Stock → Bool) (l : List Stock) (i : Nat)
    (f : Stock → Stock) (hP : ∀ s, P s = true → P (f s) = true)
    (h : ∀ s ∈ l, P s = true) : ∀ s ∈ updateById l i f, P s = true := by
  induction l with
  | nil => intro s hs; cases hs
  | cons t rest ih =>
      intro s hs
      by_cases hn : t.id == i
      · simp only [updateById, hn, if_pos] at hs
        rcases List.mem_cons.mp hs with rfl | hmem
        · exact hP t (h t (by simp))
        · exact h s (by simp [hmem])
      · simp only [updateById, hn, if_neg, Bool.false_eq_true, not_false_iff] at hs
        rcases List.mem_cons.mp hs with rfl | hmem
        · exact h s (by simp)
        · exact ih (fun x hx => h x (by simp [hx])) s hmem

/-- The record `Stock.query.get(i)` found is rewritten into the
`updateById` image. -/
lemma updateById_mem_of_find? (l : List Stock) (i : Nat) (f : Stock → Stock)
    (s0 : Stock) (h : l.find? (fun s => s.id == i) = some s0) :
    f s0 ∈ updateById l i f := by
  induction l with
  | nil => cases h
  | cons t rest ih =>
      by_cases hn : t.id == i
      · rw [List.find?] at h
        rw [hn] at h
        cases h
        simp [updateById, hn]
      · rw [List.find?] at h
        rw [Bool.not_eq_true] at hn
        rw [hn] at h
        have := ih h
        simp [updateById, hn, this]

/-- Running the loop over valid rows with pairwise-distinct stored names,
none already present, inserts every row: the counters gain `rows.length`
inserts and nothing else, no error is recorded, and the table's name
column is extended by exactly the rows' stored names. -/
lemma importLoop_all_fresh (cols : List String) (now : Nat) (rows : List Row) :
    ∀ (idx : Nat) (st : ImportState),
      (∀ r ∈ rows, rowValid r = true) →
      (rows.map rowName).Nodup →
      (∀ r ∈ rows, rowName r ∉ namesOf st.db) →
      (importLoop cols now idx rows st).added = st.added + rows.length ∧
      (importLoop cols now idx rows st).updated = st.updated ∧
      (importLoop cols now idx rows st).errors = st.errors ∧
      namesOf (importLoop cols now idx rows st).db =
        namesOf st.db ++ rows.map rowName := by
  induction rows with
  | nil =>
      intro idx st _ _ _
      simp [importLoop]
  | cons r rs ih =>
      intro idx st hv hnd hf
      rcases (rowValid_iff r).mp (hv r (by simp)) with ⟨bp, sp, q, hb, hs, hq⟩
      have hfr : findByName st.db (rowName r) = none :=
        (findByName_eq_none_iff _ _).mpr (hf r (by simp))
      simp only [importLoop]
      rw [processRow_eq_inserted cols now idx st r bp sp q hb hs hq hfr]
      have hnames1 : namesOf (⟨st.db.stocks ++ [⟨st.db.nextId, rowName r,
          rowGeneric r, rowCategory r, bp, sp, q, rowExpiry cols r, now, now⟩],
          st.db.nextId + 1⟩ : DB) = namesOf st.db ++ [rowName r] := by
        simp [namesOf]
      have hnd1 : (rs.map rowName).Nodup := (List.nodup_cons.mp (by simpa using hnd)).2
      have hhead : rowName r ∉ rs.map rowName := (List.nodup_cons.mp (by simpa using hnd)).1
      obtain ⟨h1, h2, h3, h4⟩ := ih (idx + 1)
        { st with
          db := ⟨st.db.stocks ++ [⟨st.db.nextId, rowName r, rowGeneric r,
            rowCategory r, bp, sp, q, rowExpiry cols r, now, now⟩],
            st.db.nextId + 1⟩,
          added := st.added + 1 }
        (fun x hx => hv x (by simp [hx]))
        hnd1
        (by
          intro x hx
          simp only [hnames1]
          rw [List.mem_append]
          rintro (hin | hin)
          · exact hf x (by simp [hx]) hin
          · rcases List.mem_singleton.mp hin with heq
            exact hhead (heq ▸ List.mem_map_of_mem rowName hx))
      refine ⟨?_, ?_, ?_, ?_⟩
      · rw [h1]
        simp only [List.length_cons]
        omega
      · rw [h2]
      · rw [h3]
      · rw [h4, hnames1]
        simp

/-- Running the loop over valid rows whose stored names are all already
present updates every row in place: the counters gain `rows.length`
updates and nothing else, no error is recorded, and the name column is
unchanged. -/
lemma importLoop_all_found (cols : List String) (now : Nat) (rows : List Row) :
    ∀ (idx : Nat) (st : ImportState),
      (∀ r ∈ rows, rowValid r = true) →
      (∀ r ∈ rows, rowName r ∈ namesOf st.db) →
      (importLoop cols now idx rows st).added = st.added ∧
      (importLoop cols now idx rows st).updated = st.updated + rows.length ∧
      (importLoop cols now idx rows st).errors = st.errors ∧
      namesOf (importLoop cols now idx rows st).db = namesOf st.db := by
  induction rows with
  | nil =>
      intro idx st _ _
      simp [importLoop]
  | cons r rs ih =>
      intro idx st hv hm
      rcases (rowValid_iff r).mp (hv r (by simp)) with ⟨bp, sp, q, hb, hs, hq⟩
      rcases findByName_of_mem st.db (rowName r) (hm r (by simp)) with ⟨s, hfr⟩
      simp only [importLoop]
      rw [processRow_eq_updated cols now idx st r bp sp q s hb hs hq hfr]
      have hnames1 : namesOf (⟨updateFirst st.db.stocks (rowName r)
          (fun t => updatedStock t (rowGeneric r) (rowCategory r) bp sp q
            (rowExpiry cols r) now), st.db.nextId⟩ : DB) = namesOf st.db := by
        simp only [namesOf]
        exact updateFirst_map_name st.db.stocks (rowName r) _ (fun t => rfl)
      obtain ⟨h1, h2, h3, h4⟩ := ih (idx + 1)
        { st with
          db := { st.db with
              stocks := updateFirst st.db.stocks (rowName r)
                (fun t => updatedStock t (rowGeneric r) (rowCategory r) bp sp q
                  (rowExpiry cols r) now) },
          updated := st.updated + 1 }
        (fun x hx => hv x (by simp [hx]))
        (by
          intro x hx
          simp only [hnames1]
          exact hm x (by simp [hx]))
      refine ⟨?_, ?_, ?_, ?_⟩
      · rw [h1]
      · rw [h2]
        simp only [List.length_cons]
        omega
      · rw [h3]
      · rw [h4, hnames1]

/-- C6: uploading a dataset of valid rows with pairwise-distinct stored
names, none already in the table, reports `rows.length` inserts, no
update and no error; uploading the identical dataset again over the
resulting table reports no insert, `rows.length` updates and no error. -/
theorem import_fresh_insert_then_update (df : DataFrame) (now now2 : Nat)
    (db : DB)
    (hcols : missingColumns df = [])
    (hv : ∀ r ∈ df.rows, rowValid r = true)
    (hnd : (df.rows.map rowName).Nodup)
    (hf : ∀ r ∈ df.rows, rowName r ∉ namesOf db) :
    (upload_file df now db).2 = .summary df.rows.length 0 [] ∧
    (upload_file df now2 (upload_file df now db).1).2 =
      .summary 0 df.rows.length [] := by
  obtain ⟨h1, h2, h3, h4⟩ :=
    importLoop_all_fresh df.columns now df.rows 0 ⟨db, 0, 0, []⟩ hv hnd hf
  constructor
  · simp only [upload_file, hcols, if_pos]
    rw [h1, h2, h3]
    simp
  · have hdb1 : (upload_file df now db).1 =
        (importLoop df.columns now 0 df.rows ⟨db, 0, 0, []⟩).db := by
      simp [upload_file, hcols]
    have hmem : ∀ r ∈ df.rows, rowName r ∈
        namesOf (importLoop df.columns now 0 df.rows ⟨db, 0, 0, []⟩).db := by
      intro r hr
      rw [h4]
      exact List.mem_append_right _ (List.mem_map_of_mem rowName hr)
    obtain ⟨g1, g2, g3, g4⟩ :=
      importLoop_all_found df.columns now2 df.rows 0
        ⟨(importLoop df.columns now 0 df.rows ⟨db, 0, 0, []⟩).db, 0, 0, []⟩ hv hmem
    simp only [upload_file, hcols, if_pos, hdb1]
    rw [g1, g2, g3]
    simp

/-- Witness for C6: two fresh rows import as 2 inserts / 0 updates /
no error, and re-importing the same dataset gives 0 inserts / 2 updates /
no error. -/
theorem import_fresh_insert_then_update_w :
    (upload_file
        ⟨["name", "buy_price", "sell_price", "stock_quantity"],
         [[("name", .str "A"), ("buy_price", .int 1), ("sell_price", .int 2),
           ("stock_quantity", .int 3)],
          [("name", .str "B"), ("buy_price", .int 4), ("sell_price", .int 5),
           ("stock_quantity", .int 6)]]⟩ 5 ⟨[], 1⟩).2 = .summary 2 0 [] ∧
    (upload_file
        ⟨["name", "buy_price", "sell_price", "stock_quantity"],
         [[("name", .str "A"), ("buy_price", .int 1), ("sell_price", .int 2),
           ("stock_quantity", .int 3)],
          [("name", .str "B"), ("buy_price", .int 4), ("sell_price", .int 5),
           ("stock_quantity", .int 6)]]⟩ 6
      (upload_file
        ⟨["name", "buy_price", "sell_price", "stock_quantity"],
         [[("name", .str "A"), ("buy_price", .int 1), ("sell_price", .int 2),
           ("stock_quantity", .int 3)],
          [("name", .str "B"), ("buy_price", .int 4), ("sell_price", .int 5),
           ("stock_quantity", .int 6)]]⟩ 5 ⟨[], 1⟩).1).2 = .summary 0 2 [] :=
  import_fresh_insert_then_update
    ⟨["name", "buy_price", "sell_price", "stock_quantity"],
     [[("name", .str "A"), ("buy_price", .int 1), ("sell_price", .int 2),
       ("stock_quantity", .int 3)],
      [("name", .str "B"), ("buy_price", .int 4), ("sell_price", .int 5),
       ("stock_quantity", .int 6)]]⟩ 5 6 ⟨[], 1⟩
    (by decide) (by decide) (by decide) (by decide)

/-- The loop preserves the non-empty-name invariant when every row's name
cell is a non-empty string. -/
lemma importLoop_names_ok (cols : List String) (now : Nat) (rows : List Row) :
    ∀ (idx : Nat) (st : ImportState),
      (∀ r ∈ rows, ∃ t, cellAt r "name" = .str t ∧ t ≠ "") →
      dbNamesOk st.db → dbNamesOk (importLoop cols now idx rows st).db := by
  induction rows with
  | nil =>
      intro idx st _ h
      simpa [importLoop] using h
  | cons r rs ih =>
      intro idx st hn hok
      simp only [importLoop]
      apply ih
      · intro x hx
        exact hn x (by simp [hx])
      · rcases hn r (by simp) with ⟨t, hct, hte⟩
        rcases rowName_str r t hct hte with ⟨u, hu, hue⟩
        by_cases hv : rowValid r = true
        · rcases (rowValid_iff r).mp hv with ⟨bp, sp, q, hb, hs, hq⟩
          cases hfd : findByName st.db (rowName r) with
          | none =>
              rw [processRow_eq_inserted cols now idx st r bp sp q hb hs hq hfd]
              intro s hsmem
              rcases List.mem_append.mp hsmem with hmem | hmem
              · exact hok s hmem
              · rcases List.mem_singleton.mp hmem with rfl
                simp [nonEmptyName, hu]
                exact hue
          | some s0 =>
              rw [processRow_eq_updated cols now idx st r bp sp q s0 hb hs hq hfd]
              intro s hsmem
              have hsmem2 : s ∈ updateFirst st.db.stocks (rowName r)
                  (fun t => updatedStock t (rowGeneric r) (rowCategory r) bp sp q
                    (rowExpiry cols r) now) := hsmem
              exact updateFirst_forall nonEmptyName st.db.stocks (rowName r)
                (fun t => updatedStock t (rowGeneric r) (rowCategory r) bp sp q
                  (rowExpiry cols r) now)
                (fun x hxP => hxP) hok s hsmem2
        · rw [Bool.not_eq_true] at hv
          rw [processRow_eq_failed cols now idx st r hv]
          exact hok

/-- C8 counterexample: the table holds only records with non-empty names,
yet a form edit whose submitted name strips to the empty string succeeds
and stores an empty name — the form-based edit operation does not preserve
the invariant the claim asserts for every operation. -/
theorem edit_stock_empty_name_cx :
    ([⟨1, .str "Aspirin", .str "", .str "", .mk 1 0, .mk 2 0, 5, none, 0, 0⟩] :
        List Stock).all (fun s => nonEmptyName s) = true ∧
    edit_stock 1 ⟨"   ", "", "", "1.0", "2.0", "5", ""⟩ 9
        ⟨[⟨1, .str "Aspirin", .str "", .str "", .mk 1 0, .mk 2 0, 5, none, 0, 0⟩], 2⟩ =
      (⟨[⟨1, .str "", .str "", .str "", .mk 10 (-1), .mk 20 (-1), 5, none, 0, 9⟩], 2⟩,
       .ok) := by
  decide

/-- C8 (amended): every Stock written by form-based create has a non-empty
name and create preserves the invariant; bulk quantity update never
touches names; the import upsert preserves the invariant whenever the
rows' name cells are non-empty strings; but form-based edit does not
validate the name — an edit whose submitted name strips to empty succeeds
and leaves a record with an empty name. -/
theorem name_invariant_amended :
    (∀ (form : StockForm) (now : Nat) (db : DB),
      dbNamesOk db → dbNamesOk (add_stock form now db).1) ∧
    (∀ (updates : List (Nat × Int)) (now : Nat) (db : DB),
      dbNamesOk db → dbNamesOk (bulk_update_stock updates now db).1) ∧
    (∀ (df : DataFrame) (now : Nat) (db : DB),
      dbNamesOk db →
      (∀ r ∈ df.rows, ∃ t, cellAt r "name" = .str t ∧ t ≠ "") →
      dbNamesOk (upload_file df now db).1) ∧
    (∀ (i : Nat) (form : StockForm) (now : Nat) (db : DB),
      pyStrip form.name = "" →
      (edit_stock i form now db).2 = .ok →
      ¬ dbNamesOk (edit_stock i form now db).1) := by
  refine ⟨?_, ?_, ?_, ?_⟩
  · intro form now db hok
    unfold add_stock
    by_cases h0 : pyStrip form.name = ""
    · simpa [h0] using hok
    · cases hb : pyFloatOfString form.buy_price with
      | none => simpa [h0, hb] using hok
      | some bp =>
          cases hs2 : pyFloatOfString form.sell_price with
          | none => simpa [h0, hb, hs2] using hok
          | some sp =>
              cases hq : pyIntOfString form.stock_quantity with
              | none => simpa [h0, hb, hs2, hq] using hok
              | some q =>
                  cases hx : (if form.expiry_date = "" then some none
                      else (strptimeYMD form.expiry_date).map some) with
                  | none => simpa [h0, hb, hs2, hq, hx] using hok
                  | some e =>
                      cases hfd : findByName db (.str (pyStrip form.name)) with
                      | some s => simpa [h0, hb, hs2, hq, hx, hfd] using hok
                      | none =>
                          simp only [h0, hb, hs2, hq, hx, hfd, if_neg,
                            not_false_iff]
                          intro s hsmem
                          rcases List.mem_append.mp hsmem with hmem | hmem
                          · exact hok s hmem
                          · rcases List.mem_singleton.mp hmem with rfl
                            simp [nonEmptyName]
                            exact h0
  · intro updates now db hok
    have hgen : ∀ (l : List Stock), (∀ s ∈ l, nonEmptyName s = true) →
        ∀ s ∈ updates.foldl (applyQtyUpdate now) l, nonEmptyName s = true := by
      induction updates with
      | nil =>
          intro l hl
          simpa using hl
      | cons u us ih =>
          intro l hl
          simp only [List.foldl_cons]
          apply ih
          exact updateById_forall (fun s => nonEmptyName s) l u.1 _
            (fun s hsP => hsP) hl
    exact hgen db.stocks hok
  · intro df now db hok hnames
    unfold upload_file
    by_cases hm : missingColumns df = []
    · simp only [hm, if_pos]
      exact importLoop_names_ok df.columns now df.rows 0 ⟨db, 0, 0, []⟩ hnames hok
    · simpa [hm] using hok
  · intro i form now db h0 hok2 hbad
    unfold edit_stock at hok2 hbad
    cases hfd : db.stocks.find? (fun s => s.id == i) with
    | none => simp [hfd] at hok2
    | some s0 =>
        cases hb : pyFloatOfString form.buy_price with
        | none => simp [hfd, hb] at hok2
        | some bp =>
            cases hs2 : pyFloatOfString form.sell_price with
            | none => simp [hfd, hb, hs2] at hok2
            | some sp =>
                cases hq : pyIntOfString form.stock_quantity with
                | none => simp [hfd, hb, hs2, hq] at hok2
                | some q =>
                    cases hx : (if form.expiry_date = "" then some none
                        else (strptimeYMD form.expiry_date).map some) with
                    | none => simp [hfd, hb, hs2, hq, hx] at hok2
                    | some e =>
                        simp only [hfd, hb, hs2, hq, hx] at hbad
                        have h2 := hbad _
                          (updateById_mem_of_find? db.stocks i _ s0 hfd)
                        simp [nonEmptyName, h0] at h2

/-- Witness for C8 (amended): concrete instances — a create over the empty
table, a bulk update, a well-named import, and an edit that breaks the
invariant. -/
theorem name_invariant_amended_w :
    dbNamesOk (add_stock ⟨"Tylenol", "", "", "1", "2", "3", ""⟩ 4 ⟨[], 1⟩).1 ∧
    dbNamesOk (bulk_update_stock [(1, 9)] 4
      ⟨[⟨1, .str "Aspirin", .str "", .str "", .mk 1 0, .mk 2 0, 5, none, 0, 0⟩],
       2⟩).1 ∧
    dbNamesOk (upload_file
      ⟨["name", "buy_price", "sell_price", "stock_quantity"],
       [[("name", .str "A"), ("buy_price", .int 1), ("sell_price", .int 2),
         ("stock_quantity", .int 3)]]⟩ 5 ⟨[], 1⟩).1 ∧
    ¬ dbNamesOk (edit_stock 1 ⟨"   ", "", "", "1.0", "2.0", "5", ""⟩ 9
      ⟨[⟨1, .str "Aspirin", .str "", .str "", .mk 1 0, .mk 2 0, 5, none, 0, 0⟩],
       2⟩).1 :=
  ⟨name_invariant_amended.1 ⟨"Tylenol", "", "", "1", "2", "3", ""⟩ 4 ⟨[], 1⟩
     (by intro s hs; cases hs),
   name_invariant_amended.2.1 [(1, 9)] 4
     ⟨[⟨1, .str "Aspirin", .str "", .str "", .mk 1 0, .mk 2 0, 5, none, 0, 0⟩], 2⟩
     (by
       intro s hs
       cases hs with
       | head => decide
       | tail _ h => cases h),
   name_invariant_amended.2.2.1
     ⟨["name", "buy_price", "sell_price", "stock_quantity"],
      [[("name", .str "A"), ("buy_price", .int 1), ("sell_price", .int 2),
        ("stock_quantity", .int 3)]]⟩ 5 ⟨[], 1⟩
     (by intro s hs; cases hs)
     (by
       intro r hr
       cases hr with
       | head => exact ⟨"A", rfl, by decide⟩
       | tail _ h => cases h),
   name_invariant_amended.2.2.2 1 ⟨"   ", "", "", "1.0", "2.0", "5", ""⟩ 9
     ⟨[⟨1, .str "Aspirin", .str "", .str "", .mk 1 0, .mk 2 0, 5, none, 0, 0⟩], 2⟩
     (by decide) (by decide)⟩

end ST
